import Mathlib

/-!
# Wallet ledger of `proplex_backend`, shallowly embedded

This file embeds the wallet ledger of `src/services/investor.service.ts`
(class `WalletService`, over `BaseService` of `src/services/base.service.ts`
and the enums of `src/models/wallet.model.ts`) and proves or refutes the
specification's claims about it.

Modelling conventions:
* Balances and amounts are modelled exactly, as `Int` — amounts in the
  asset's smallest unit (spec §3), on which double arithmetic is exact; IEEE
  rounding is out of scope.  The service only adds, negates and compares
  amounts, so every claim is insensitive to this choice.  The special values
  `NaN`/`±Infinity`, which matter only for the `amount` validation, are
  modelled separately by `JSNum`.
* Mongo object ids are opaque `Nat`s, so the `ObjectId.isValid` guards of the
  source (which can only fail on malformed strings) are always satisfied and
  are not modelled.
* The wallet collection is a `List Wallet`; `findById`/`setById` model
  `Model.findById` and the write-back of `findByIdAndUpdate`/`save`.
* A Mongoose session transaction that throws is aborted, so a failing
  operation returns only an error and no new collection state: rollback is
  `Except.error`.
* `Date.now()` and `Math.random()` are an oracle: operations take an extra
  `env : Nat` from which the transaction `reference` and `createdAt` are made.
-/

/-- `TransactionType` of `src/models/wallet.model.ts`. -/
inductive TransactionType where
  | deposit
  | withdrawal
  | transfer
  | payment
  | refund
  | commission
  | bonus
  | cryptoDeposit
  | cryptoWithdrawal
  | cryptoSwap
  | fiatDeposit
  | fiatWithdrawal
  | bankTransfer
  deriving DecidableEq, Repr

/-- `TransactionStatus` of `src/models/wallet.model.ts`. -/
inductive TransactionStatus where
  | pending
  | processing
  | completed
  | failed
  | cancelled
  | confirming
  | requiresAction
  deriving DecidableEq, Repr

/-- `WalletType` of `src/models/wallet.model.ts`. -/
inductive WalletType where
  | fiat
  | crypto
  deriving DecidableEq, Repr

/-- The asset descriptor embedded in a wallet (`IAsset`): the `type` (asset
kind) and `code` fields are the ones the service reads.  The empty string
stands for a missing/empty (JS-falsy) field. -/
structure Asset where
  type : String
  code : String
  deriving DecidableEq, Repr

/-- A transaction record (`ITransaction`), restricted to the fields
`processTransaction` sets. -/
structure Transaction where
  wallet : Nat
  user : Nat
  type : TransactionType
  status : TransactionStatus
  amount : Int
  balanceBefore : Int
  balanceAfter : Int
  reference : String
  description : Option String
  metadata : List (String × String)
  createdAt : Nat
  deriving DecidableEq, Repr

/-- A wallet document (`IWallet`), restricted to the fields the ledger
operations read or write. -/
structure Wallet where
  id : Nat
  ownerType : String
  ownerId : Nat
  type : WalletType
  asset : Asset
  balance : Int
  availableBalance : Int
  lockedBalance : Int
  isActive : Bool
  transactions : List Transaction
  deriving DecidableEq, Repr

/-- Errors thrown by the service layer: `BadRequestError`, `NotFoundError`,
the Mongo duplicate-key error (E11000) surfaced by a failed insert, and a
JavaScript `TypeError` (calling a value that is not a function). -/
inductive ServiceError where
  | badRequest (msg : String)
  | notFound (msg : String)
  | duplicateKey
  | typeError (msg : String)
  deriving DecidableEq, Repr

instance {ε : Type u} {α : Type v} [DecidableEq ε] [DecidableEq α] :
    DecidableEq (Except ε α) := fun x y =>
  match x, y with
  | .ok a, .ok b =>
    if h : a = b then .isTrue (by rw [h]) else .isFalse (by simp [h])
  | .error a, .error b =>
    if h : a = b then .isTrue (by rw [h]) else .isFalse (by simp [h])
  | .ok _, .error _ => .isFalse (by simp)
  | .error _, .ok _ => .isFalse (by simp)

/-- `Model.findById`: the document whose `_id` matches (ids are unique under
the store's index; the model returns the first match). -/
def findById : List Wallet → Nat → Option Wallet
  | [], _ => none
  | w :: rest, i => if w.id = i then some w else findById rest i

/-- Write-back of an updated document (`findByIdAndUpdate` / `save`):
replaces the document whose `_id` matches. -/
def setById : List Wallet → Nat → Wallet → List Wallet
  | [], _, _ => []
  | w :: rest, i, w' => if w.id = i then w' :: rest else w :: setById rest i w'

/-- The balance delta applied by `processTransaction`:
`type === TransactionType.DEPOSIT ? amount : -amount`. -/
def txDelta (t : TransactionType) (amount : Int) : Int :=
  if t = TransactionType.deposit then amount else -amount

/-- The `transactionData` record built by `processTransaction` from the
post-adjustment wallet: status `completed`, `balanceBefore` recomputed as
`wallet.balance - (type === DEPOSIT ? amount : -amount)` from the new
balance `newBal`, `balanceAfter` the new balance, and the
`` `tx_${Date.now()}_${...}` `` reference drawn from the `env` oracle. -/
def mkTxRecord (walletId userId : Nat) (amount : Int)
    (ttype : TransactionType) (newBal : Int) (description : Option String)
    (metadata : List (String × String)) (env : Nat) : Transaction :=
  { wallet := walletId
    user := userId
    type := ttype
    status := TransactionStatus.completed
    amount := amount
    balanceBefore := newBal - txDelta ttype amount
    balanceAfter := newBal
    reference := "tx_" ++ toString env
    description := description
    metadata := metadata
    createdAt := env }

/-- `WalletService.processTransaction` (investor.service.ts:462-545).
Steps, in source order:
1. validate `amount` (`typeof amount !== 'number' || amount <= 0`; the
   argument is an exact number here, so only the sign test remains — the
   full JS-number semantics of this check is studied separately via `JSNum`);
2. `findByIdAndUpdate` with `$inc` on `balance` (`{new : true}` returns the
   post-adjustment document), `NotFoundError` when the wallet is absent;
3. throw `Insufficient funds` when the type is not `deposit` and the
   post-adjustment balance `w.balance + txDelta ttype amount` is below
   `amount` (note: the source compares the *new* balance against `amount`);
4. push the `mkTxRecord` transaction onto the updated wallet and save;
5. return the last element of the updated transaction array.
A throw aborts the session, so an error leaves the collection unchanged. -/
def processTransaction (σ : List Wallet) (walletId userId : Nat) (amount : Int)
    (ttype : TransactionType) (description : Option String)
    (metadata : List (String × String)) (env : Nat) :
    Except ServiceError (List Wallet × Transaction) :=
  if amount ≤ 0 then
    .error (.badRequest "Transaction amount must be a positive number")
  else
    match findById σ walletId with
    | none => .error (.notFound "Wallet not found")
    | some w =>
      if ttype ≠ TransactionType.deposit ∧
          w.balance + txDelta ttype amount < amount then
        .error (.badRequest "Insufficient funds for this transaction")
      else
        .ok (setById σ walletId
              { w with
                balance := w.balance + txDelta ttype amount,
                transactions := w.transactions ++
                  [mkTxRecord walletId userId amount ttype
                    (w.balance + txDelta ttype amount) description metadata
                    env] },
             (w.transactions ++
               [mkTxRecord walletId userId amount ttype
                 (w.balance + txDelta ttype amount) description metadata
                 env]).getLast (by simp))

/-- A fresh demo USD wallet with the given id and balance and no history
(used only to instantiate theorems on concrete inputs). -/
def demoWallet (i : Nat) (bal : Int) : Wallet :=
  { id := i
    ownerType := "user"
    ownerId := 7
    type := WalletType.fiat
    asset := ⟨"fiat", "USD"⟩
    balance := bal
    availableBalance := 0
    lockedBalance := 0
    isActive := true
    transactions := [] }

/-- `WalletService.transferFunds` (investor.service.ts:576-662).  Source
order: same-wallet check, `amount <= 0` check, both lookups, asset
compatibility check, then two `processTransaction` calls sharing one session
— the sender leg and the recipient leg are BOTH passed
`TransactionType.TRANSFER`.  The shared session makes the first leg's write
visible to the second and commits or aborts them together, which sequential
state passing models; a throw from either leg aborts everything. -/
def transferFunds (σ : List Wallet) (senderWalletId recipientWalletId : Nat)
    (amount : Int) (userId : Nat) (description : Option String)
    (metadata : List (String × String)) (env : Nat) :
    Except ServiceError (List Wallet × Transaction × Transaction) :=
  if senderWalletId = recipientWalletId then
    .error (.badRequest "Cannot transfer to the same wallet")
  else if amount ≤ 0 then
    .error (.badRequest "Transfer amount must be greater than zero")
  else
    match findById σ senderWalletId, findById σ recipientWalletId with
    | none, _ => .error (.notFound "Sender wallet not found")
    | some _, none => .error (.notFound "Recipient wallet not found")
    | some senderWallet, some recipientWallet =>
      if senderWallet.asset.code ≠ recipientWallet.asset.code ∨
          senderWallet.asset.type ≠ recipientWallet.asset.type then
        .error (.badRequest "Cannot transfer between different asset types")
      else
        match processTransaction σ senderWalletId userId amount
          TransactionType.transfer
          (some (description.getD
            ("Transfer to wallet " ++ toString recipientWalletId)))
          (metadata ++
            [("recipientWalletId", toString recipientWallet.id),
             ("recipientOwnerType", recipientWallet.ownerType),
             ("recipientOwnerId", toString recipientWallet.ownerId)]) env with
        | .error e => .error e
        | .ok (σ1, senderTx) =>
          match processTransaction σ1 recipientWalletId userId amount
            TransactionType.transfer
            (some (description.getD
              ("Transfer from wallet " ++ toString senderWalletId)))
            (metadata ++
              [("senderWalletId", toString senderWallet.id),
               ("senderOwnerType", senderWallet.ownerType),
               ("senderOwnerId", toString senderWallet.ownerId)]) (env + 1) with
          | .error e => .error e
          | .ok (σ2, recipientTx) => .ok (σ2, senderTx, recipientTx)

/-- The recognized `WalletOwnerType` enum values
(`Object.values(WalletOwnerType)`). -/
def walletOwnerTypeValues : List String :=
  ["user", "investor", "company", "asset"]

/-- The `findOne` query of `getOrCreateWallet`: match on `ownerType`,
`ownerId`, `asset.code` and `asset.type` (and nothing else). -/
def findWalletByKey (σ : List Wallet) (ownerType : String) (ownerId : Nat)
    (asset : Asset) : Option Wallet :=
  σ.find? fun w =>
    decide (w.ownerType = ownerType) && decide (w.ownerId = ownerId) &&
    decide (w.asset.code = asset.code) && decide (w.asset.type = asset.type)

/-- The document inserted by `getOrCreateWallet` when no wallet matches: the
`$setOnInsert` payload — zero balances, `isActive`, empty transactions. -/
def freshWallet (ownerType : String) (ownerId : Nat) (asset : Asset)
    (wtype : WalletType) (newId : Nat) : Wallet :=
  { id := newId
    ownerType := ownerType
    ownerId := ownerId
    type := wtype
    asset := asset
    balance := 0
    availableBalance := 0
    lockedBalance := 0
    isActive := true
    transactions := [] }

/-- `WalletService.getOrCreateWallet` (investor.service.ts:177-235).
Source order: owner-type validation (`Object.values(WalletOwnerType)
.includes(ownerType)`), asset validation (`!asset?.code || !asset?.type`,
where the empty string is the JS-falsy missing value), `findOne` on the
composite key, and `create` when nothing matches.  The insert can hit the
collection's unique index if a concurrent call created the same key between
`findOne` and `create`; that outcome is the environment's choice, so it is
passed in as `dupKeyRace`.  The `catch` block aborts the session and
rethrows whatever `create` threw — there is no duplicate-key recovery. -/
def getOrCreateWallet (σ : List Wallet) (ownerType : String) (ownerId : Nat)
    (asset : Asset) (wtype : WalletType) (newId : Nat) (dupKeyRace : Bool) :
    Except ServiceError (List Wallet × Wallet) :=
  if ¬ walletOwnerTypeValues.contains ownerType then
    .error (.badRequest "Invalid owner type")
  else if asset.code = "" ∨ asset.type = "" then
    .error (.badRequest "Invalid asset information")
  else
    match findWalletByKey σ ownerType ownerId asset with
    | some wallet => .ok (σ, wallet)
    | none =>
      if dupKeyRace then .error .duplicateKey
      else .ok (σ ++ [freshWallet ownerType ownerId asset wtype newId],
                freshWallet ownerType ownerId asset wtype newId)

/-- Options of `getWalletWithTransactions` (`WalletTransactionOptions`);
`none` models an absent field, dates are epoch milliseconds. -/
structure WalletTransactionOptions where
  type : Option TransactionType := none
  status : Option TransactionStatus := none
  startDate : Option Nat := none
  endDate : Option Nat := none
  page : Option Int := none
  limit : Option Int := none
  deriving Repr

/-- Result shape of `getWalletWithTransactions`
(`WalletWithTransactions`). -/
structure WalletWithTransactions where
  transactions : List Transaction
  total : Nat
  page : Int
  totalPages : Nat
  wallet : Wallet
  deriving DecidableEq, Repr

/-- The `$match` stage built from the supplied filters: each filter applies
only when present (`if (type) ...`, `if (status) ...`, `$gte`/`$lte` on
`createdAt`, both inclusive).  The always-true `transactions._id $exists`
conjunct is omitted: embedded transaction subdocuments always carry an id. -/
def txMatchesFilters (opts : WalletTransactionOptions) (tx : Transaction) :
    Bool :=
  (match opts.type with
   | some t => decide (tx.type = t)
   | none => true) &&
  (match opts.status with
   | some s => decide (tx.status = s)
   | none => true) &&
  (match opts.startDate with
   | some d => decide (d ≤ tx.createdAt)
   | none => true) &&
  (match opts.endDate with
   | some d => decide (tx.createdAt ≤ d)
   | none => true)

/-- Insert a transaction into a list already sorted by `createdAt`
descending. -/
def insertDescByCreatedAt (t : Transaction) :
    List Transaction → List Transaction
  | [] => [t]
  | u :: rest =>
    if u.createdAt < t.createdAt then t :: u :: rest
    else u :: insertDescByCreatedAt t rest

/-- `$sort {createdAt : -1}` — newest first. -/
def sortDescByCreatedAt : List Transaction → List Transaction
  | [] => []
  | t :: rest => insertDescByCreatedAt t (sortDescByCreatedAt rest)

/-- The aggregation pipeline of `getWalletWithTransactions`, as a function
of the wallet document, effective page/limit and filters: `$unwind` +
`$match` (filter), `$sort` newest-first, `$facet` with a `$count` of all
matches and a `$skip`/`$limit` page, `totalPages = $ceil(total / limit)`.
When no transaction matches, the metadata facet is empty and the `$ifNull`
fallbacks give `total = 0`, `page = 1`, `totalPages = 0`. -/
def runTransactionsPipeline (wallet : Wallet) (pageNum limitNum : Int)
    (opts : WalletTransactionOptions) : WalletWithTransactions :=
  let matched := wallet.transactions.filter (txMatchesFilters opts)
  let sorted := sortDescByCreatedAt matched
  let total := sorted.length
  let pageTxs := (sorted.drop ((pageNum - 1) * limitNum).toNat).take
    limitNum.toNat
  { transactions := pageTxs
    total := total
    page := if total = 0 then 1 else pageNum
    totalPages := (total + limitNum.toNat - 1) / limitNum.toNat
    wallet := wallet }

/-- The static members of the `WalletService` class object: neither
`WalletService` nor `BaseService` declares any `static`, so the constructor
function has none (the instance methods live on the prototype, not on
`this.constructor`). -/
def walletServiceStatics : List String := []

/-- `WalletService.getWalletWithTransactions` (investor.service.ts:332-457).
Source order: effective pagination (`page` at least 1, `limit` clamped to
[1, 100], defaults 1 and 10), existence check (`NotFoundError`), then
`(this.constructor as any).aggregate(pipeline)`.  `this.constructor` is the
`WalletService` class object, whose member `aggregate` is `undefined`, so
the call raises `TypeError` before any pipeline runs; the pipeline branch is
kept to state what the aggregation would compute were the member present. -/
def getWalletWithTransactions (σ : List Wallet) (walletId : Nat)
    (opts : WalletTransactionOptions) :
    Except ServiceError WalletWithTransactions :=
  let pageNum : Int := max 1 (opts.page.getD 1)
  let limitNum : Int := min (max 1 (opts.limit.getD 10)) 100
  match findById σ walletId with
  | none => .error (.notFound "Wallet not found")
  | some wallet =>
    if walletServiceStatics.contains "aggregate" then
      .ok (runTransactionsPipeline wallet pageNum limitNum opts)
    else
      .error (.typeError "this.constructor.aggregate is not a function")

/-- A JavaScript value of type `number`: NaN, an infinity, or a finite
value (modelled exactly). -/
inductive JSNum where
  | nan
  | posInf
  | negInf
  | finite (q : ℚ)
  deriving DecidableEq

/-- JS `<=` on numbers: every comparison against NaN is false; `-Infinity`
is below everything and `+Infinity` above everything. -/
def jsLe : JSNum → JSNum → Bool
  | .nan, _ => false
  | _, .nan => false
  | .negInf, _ => true
  | _, .negInf => false
  | _, .posInf => true
  | .posInf, .finite _ => false
  | .finite a, .finite b => decide (a ≤ b)

/-- The amount validation of `processTransaction`
(`typeof amount !== 'number' || amount <= 0`), evaluated on an argument that
already has JS type `number` (the `typeof` disjunct is then false), under
full JS comparison semantics. -/
def amountValidationFails (a : JSNum) : Bool := jsLe a (JSNum.finite 0)

/-- The specification's side of the amount rule: the amount is a finite
number strictly greater than zero. -/
def isFinitePositive : JSNum → Bool
  | .finite q => decide (0 < q)
  | _ => false

/-- One standalone `processTransaction` call in a sequence: the target
wallet, the acting user, the amount and the transaction type. -/
structure LedgerOp where
  walletId : Nat
  userId : Nat
  amount : Int
  type : TransactionType
  deriving DecidableEq, Repr

/-- Run one standalone `processTransaction` call; a throw aborts the call's
own session, so the collection is unchanged on failure. -/
def applyOp (σ : List Wallet) (op : LedgerOp) : List Wallet :=
  match processTransaction σ op.walletId op.userId op.amount op.type
    none [] 0 with
  | .ok (σ', _) => σ'
  | .error _ => σ

/-- Run a finite sequence of standalone `processTransaction` calls. -/
def applyOps (σ : List Wallet) : List LedgerOp → List Wallet
  | [] => σ
  | op :: rest => applyOps (applyOp σ op) rest

/-- Run a sequence of calls, requiring every one of them to succeed. -/
def applyOpsOk (σ : List Wallet) : List LedgerOp → Option (List Wallet)
  | [] => some σ
  | op :: rest =>
    match processTransaction σ op.walletId op.userId op.amount op.type
      none [] 0 with
    | .ok (σ', _) => applyOpsOk σ' rest
    | .error _ => none

/-- Chained audit trail: each record's `balanceAfter` equals the next
record's `balanceBefore`. -/
def chained : List Transaction → Bool
  | t₁ :: t₂ :: rest =>
    decide (t₁.balanceAfter = t₂.balanceBefore) && chained (t₂ :: rest)
  | _ => true

/-- Final collection of the concrete C5 run (also C3's run, reused with
every call required to succeed). -/
def c5FinalStore : List Wallet :=
  (applyOpsOk [demoWallet 1 5] [⟨1, 9, 100, TransactionType.deposit⟩,
    ⟨1, 9, 30, TransactionType.withdrawal⟩]).getD []

def c5FinalWallet : Wallet := (findById c5FinalStore 1).getD (demoWallet 0 0)

/-- Concrete store and run instantiating C3: deposit 100 then withdraw 30
on a wallet that starts at balance 5. -/
def c3Store : List Wallet := [demoWallet 1 5]

def c3Ops : List LedgerOp :=
  [⟨1, 9, 100, TransactionType.deposit⟩,
   ⟨1, 9, 30, TransactionType.withdrawal⟩]

def c3FinalWallet : Wallet :=
  (findById (applyOps c3Store c3Ops) 1).getD (demoWallet 0 0)

/-- The concrete C4 run: a deposit of 100 into an empty wallet. -/
def c4Run : Except ServiceError (List Wallet × Transaction) :=
  processTransaction [demoWallet 1 0] 1 9 100 TransactionType.deposit
    none [] 0

def c4Store : List Wallet :=
  match c4Run with
  | .ok (s, _) => s
  | .error _ => []

def c4Tx : Transaction :=
  match c4Run with
  | .ok (_, t) => t
  | .error _ => mkTxRecord 0 0 0 TransactionType.deposit 0 none [] 0

def c4NewWallet : Wallet :=
  { demoWallet 1 0 with
    balance := (demoWallet 1 0).balance + txDelta TransactionType.deposit 100,
    transactions := (demoWallet 1 0).transactions ++ [c4Tx] }

/-- The two same-asset wallets of the concrete transfer run. -/
def c1Store : List Wallet :=
  [demoWallet 1 100, { demoWallet 2 100 with ownerId := 8 }]

/-- The asset descriptor shared by the concrete get-or-create runs. -/
def c6Asset : Asset := ⟨"fiat", "USD"⟩

/-- An inactive fiat wallet under the demo owner's key. -/
def c10Wallet : Wallet :=
  { demoWallet 1 42 with isActive := false, type := WalletType.fiat }

/-- A demo wallet holding one deposit record, for the concrete query run. -/
def c8Wallet : Wallet :=
  { demoWallet 1 50 with
    transactions := [mkTxRecord 1 9 50 TransactionType.deposit 50 none [] 0] }

theorem findById_some_id {σ : List Wallet} {i : Nat} {w : Wallet}
    (h : findById σ i = some w) : w.id = i := by
  induction σ with
  | nil => simp [findById] at h
  | cons x rest ih =>
    rw [findById] at h
    by_cases hx : x.id = i
    · rw [if_pos hx] at h
      cases h
      exact hx
    · rw [if_neg hx] at h
      exact ih h

theorem findById_setById_self {σ : List Wallet} {i : Nat} {w w' : Wallet}
    (hw' : w'.id = i) (h : findById σ i = some w) :
    findById (setById σ i w') i = some w' := by
  induction σ with
  | nil => simp [findById] at h
  | cons x rest ih =>
    rw [setById]
    by_cases hx : x.id = i
    · rw [if_pos hx, findById, if_pos hw']
    · rw [if_neg hx, findById, if_neg hx]
      rw [findById, if_neg hx] at h
      exact ih h

theorem findById_setById_ne {σ : List Wallet} {i j : Nat} {w' : Wallet}
    (hne : i ≠ j) (hw' : w'.id = i) :
    findById (setById σ i w') j = findById σ j := by
  induction σ with
  | nil => rfl
  | cons x rest ih =>
    rw [setById]
    by_cases hx : x.id = i
    · rw [if_pos hx, findById, findById]
      have h1 : ¬ w'.id = j := by rw [hw']; exact hne
      have h2 : ¬ x.id = j := by rw [hx]; exact hne
      rw [if_neg h1, if_neg h2]
    · rw [if_neg hx, findById, findById]
      by_cases hj : x.id = j
      · rw [if_pos hj, if_pos hj]
      · rw [if_neg hj, if_neg hj]
        exact ih

/-- Inversion of a successful `processTransaction`: characterizes the
returned record and the new collection state. -/
theorem processTransaction_ok_elim {σ : List Wallet} {wid uid : Nat}
    {amount : Int} {t : TransactionType} {d : Option String}
    {m : List (String × String)} {env : Nat} {σ' : List Wallet}
    {tx : Transaction}
    (h : processTransaction σ wid uid amount t d m env = .ok (σ', tx)) :
    ∃ w, findById σ wid = some w ∧ 0 < amount ∧
      ¬(t ≠ TransactionType.deposit ∧ w.balance + txDelta t amount < amount) ∧
      tx.wallet = wid ∧ tx.user = uid ∧ tx.type = t ∧
      tx.status = TransactionStatus.completed ∧ tx.amount = amount ∧
      tx.balanceBefore = w.balance ∧
      tx.balanceAfter = w.balance + txDelta t amount ∧
      σ' = setById σ wid
        { w with balance := w.balance + txDelta t amount,
                 transactions := w.transactions ++ [tx] } := by
  unfold processTransaction at h
  by_cases hamt : amount ≤ 0
  · rw [if_pos hamt] at h
    exact absurd h (by simp)
  · rw [if_neg hamt] at h
    rcases hfind : findById σ wid with _ | w
    · rw [hfind] at h
      exact absurd h (by simp)
    · rw [hfind] at h
      dsimp only at h
      by_cases hfunds : t ≠ TransactionType.deposit ∧
          w.balance + txDelta t amount < amount
      · rw [if_pos hfunds] at h
        exact absurd h (by simp)
      · rw [if_neg hfunds] at h
        refine ⟨w, rfl, by omega, hfunds, ?_⟩
        simp only [Except.ok.injEq, Prod.mk.injEq] at h
        obtain ⟨hσ', htx⟩ := h
        rw [List.getLast_append_singleton] at htx
        subst htx
        subst hσ'
        refine ⟨rfl, rfl, rfl, rfl, rfl, ?_, rfl, rfl⟩
        show w.balance + txDelta t amount - txDelta t amount = w.balance
        omega

/-- One standalone call preserves "the wallet at id `j`, if present, has a
non-negative balance". -/
theorem applyOp_preserves_nonneg {σ : List Wallet} {op : LedgerOp} {j : Nat}
    (H : ∀ w, findById σ j = some w → 0 ≤ w.balance) :
    ∀ w', findById (applyOp σ op) j = some w' → 0 ≤ w'.balance := by
  intro w' hw'
  unfold applyOp at hw'
  rcases hpt : processTransaction σ op.walletId op.userId op.amount op.type
      none [] 0 with e | ⟨σ2, tx2⟩
  · rw [hpt] at hw'
    exact H w' hw'
  · rw [hpt] at hw'
    dsimp only at hw'
    obtain ⟨w, hfind, hpos, hfunds, _, _, _, _, _, _, _, hσ2⟩ :=
      processTransaction_ok_elim hpt
    rw [hσ2] at hw'
    set wUpd : Wallet :=
      { w with balance := w.balance + txDelta op.type op.amount,
               transactions := w.transactions ++ [tx2] } with hwUpd
    have hidU : wUpd.id = op.walletId := by
      show w.id = op.walletId
      exact findById_some_id hfind
    by_cases hj : op.walletId = j
    · subst hj
      rw [findById_setById_self hidU hfind] at hw'
      injection hw' with hww
      subst hww
      show 0 ≤ wUpd.balance
      have hbalU : wUpd.balance = w.balance + txDelta op.type op.amount := rfl
      rw [hbalU]
      have hwb := H w hfind
      by_cases hdep : op.type = TransactionType.deposit
      · rw [txDelta, if_pos hdep]
        omega
      · rw [txDelta, if_neg hdep]
        rw [txDelta, if_neg hdep] at hfunds
        have : ¬ w.balance + -op.amount < op.amount := fun hc =>
          hfunds ⟨hdep, hc⟩
        omega
    · rw [findById_setById_ne hj hidU] at hw'
      exact H w' hw'

/-- A finite sequence of standalone calls preserves non-negativity of the
wallet at id `j`. -/
theorem applyOps_preserves_nonneg {ops : List LedgerOp} :
    ∀ {σ : List Wallet} {j : Nat},
    (∀ w, findById σ j = some w → 0 ≤ w.balance) →
    ∀ w', findById (applyOps σ ops) j = some w' → 0 ≤ w'.balance := by
  induction ops with
  | nil =>
    intro σ j H w' hw'
    exact H w' hw'
  | cons op rest ih =>
    intro σ j H w' hw'
    rw [applyOps] at hw'
    exact ih (applyOp_preserves_nonneg H) w' hw'

/-- Claim C3 — no-negative-balance invariant: starting from a wallet with a
non-negative stored balance, no finite sequence of `processTransaction`
calls can make its stored balance negative; a call that fails leaves the
collection unchanged, and a debit that would drive the balance negative
always fails. -/
theorem noNegativeBalance_invariant :
    (∀ (σ : List Wallet) (ops : List LedgerOp) (i : Nat) (w w' : Wallet),
        findById σ i = some w → 0 ≤ w.balance →
        findById (applyOps σ ops) i = some w' → 0 ≤ w'.balance) ∧
    (∀ (σ : List Wallet) (op : LedgerOp) (e : ServiceError),
        processTransaction σ op.walletId op.userId op.amount op.type
          none [] 0 = .error e →
        applyOp σ op = σ) ∧
    (∀ (σ : List Wallet) (op : LedgerOp) (w : Wallet),
        findById σ op.walletId = some w →
        op.type ≠ TransactionType.deposit →
        w.balance - op.amount < 0 →
        ∃ e, processTransaction σ op.walletId op.userId op.amount op.type
          none [] 0 = .error e) := by
  refine ⟨?_, ?_, ?_⟩
  · intro σ ops i w w' hw h0 hw'
    refine applyOps_preserves_nonneg (fun w2 hw2 => ?_) w' hw'
    rw [hw] at hw2
    injection hw2 with h2
    rw [← h2]
    exact h0
  · intro σ op e he
    unfold applyOp
    rw [he]
  · intro σ op w hw hdep hneg
    by_cases hamt : op.amount ≤ 0
    · exact ⟨.badRequest "Transaction amount must be a positive number",
        by unfold processTransaction; rw [if_pos hamt]⟩
    · refine ⟨.badRequest "Insufficient funds for this transaction", ?_⟩
      unfold processTransaction
      rw [if_neg hamt, hw]
      dsimp only
      rw [if_pos ?_]
      refine ⟨hdep, ?_⟩
      rw [txDelta, if_neg hdep]
      omega

theorem chained_append {ts : List Transaction} {tx : Transaction}
    (h : chained ts = true)
    (hlast : ∀ t, ts.getLast? = some t → t.balanceAfter = tx.balanceBefore) :
    chained (ts ++ [tx]) = true := by
  induction ts with
  | nil => rfl
  | cons a rest ih =>
    cases rest with
    | nil =>
      have ha := hlast a rfl
      have h1 : chained [tx] = true := rfl
      show (decide (a.balanceAfter = tx.balanceBefore) && chained [tx]) = true
      rw [ha, h1]
      simp
    | cons b rest2 =>
      rw [chained] at h
      simp only [Bool.and_eq_true, decide_eq_true_eq] at h
      obtain ⟨hab, hrest⟩ := h
      have hlast2 : ∀ t, (b :: rest2).getLast? = some t →
          t.balanceAfter = tx.balanceBefore := by
        intro t ht
        apply hlast
        rw [List.getLast?_cons_cons]
        exact ht
      have hih := ih hrest hlast2
      have hgoal : chained (a :: (b :: rest2) ++ [tx]) =
          (decide (a.balanceAfter = b.balanceBefore) &&
            chained ((b :: rest2) ++ [tx])) := rfl
      show chained (a :: (b :: rest2) ++ [tx]) = true
      rw [hgoal, hab, hih]
      simp

theorem getLast?_append_singleton {α : Type u} (l : List α) (a : α) :
    (l ++ [a]).getLast? = some a := by
  rw [List.getLast?_append_cons]
  rfl

/-- Success of one targeted call advances the chained-audit invariant of
the target wallet: the record count grows by one, the chain stays linked,
and the last record's `balanceAfter` is the stored balance. -/
theorem applyOpsOk_chain {ops : List LedgerOp} :
    ∀ {σ σ' : List Wallet} {i : Nat} {w : Wallet},
    findById σ i = some w →
    chained w.transactions = true →
    (∀ t, w.transactions.getLast? = some t → t.balanceAfter = w.balance) →
    (∀ op ∈ ops, op.walletId = i) →
    applyOpsOk σ ops = some σ' →
    ∀ w', findById σ' i = some w' →
      w'.transactions.length = w.transactions.length + ops.length ∧
      chained w'.transactions = true ∧
      (∀ t, w'.transactions.getLast? = some t →
        t.balanceAfter = w'.balance) := by
  induction ops with
  | nil =>
    intro σ σ' i w hw hchain hlast _ hrun w' hw'
    rw [applyOpsOk] at hrun
    injection hrun with hσ
    subst hσ
    rw [hw] at hw'
    injection hw' with hww
    subst hww
    exact ⟨rfl, hchain, hlast⟩
  | cons op rest ih =>
    intro σ σ' i w hw hchain hlast hops hrun w' hw'
    have hopi : op.walletId = i := hops op (List.mem_cons_self op rest)
    rw [applyOpsOk] at hrun
    rcases hpt : processTransaction σ op.walletId op.userId op.amount op.type
        none [] 0 with e | ⟨σ2, tx2⟩
    · rw [hpt] at hrun
      exact absurd hrun (by simp)
    · rw [hpt] at hrun
      dsimp only at hrun
      obtain ⟨w0, hfind0, _, _, _, _, _, _, _, hbb, hba, hσ2⟩ :=
        processTransaction_ok_elim hpt
      rw [hopi, hw] at hfind0
      injection hfind0 with hw0
      subst hw0
      rw [hσ2, hopi] at hrun
      set wUpd : Wallet :=
        { w with balance := w.balance + txDelta op.type op.amount,
                 transactions := w.transactions ++ [tx2] } with hwUpd
      have hidU : wUpd.id = i := by
        show w.id = i
        exact findById_some_id hw
      have hwUpdFind : findById (setById σ i wUpd) i = some wUpd :=
        findById_setById_self hidU hw
      have hchainU : chained wUpd.transactions = true := by
        show chained (w.transactions ++ [tx2]) = true
        refine chained_append hchain ?_
        intro t ht
        rw [hlast t ht, hbb]
      have hlastU : ∀ t, wUpd.transactions.getLast? = some t →
          t.balanceAfter = wUpd.balance := by
        intro t ht
        have : (w.transactions ++ [tx2]).getLast? = some tx2 :=
          getLast?_append_singleton w.transactions tx2
        rw [this] at ht
        injection ht with ht2
        subst ht2
        show tx2.balanceAfter = w.balance + txDelta op.type op.amount
        exact hba
      have hopsRest : ∀ o ∈ rest, o.walletId = i := fun o ho =>
        hops o (List.mem_cons_of_mem op ho)
      obtain ⟨hlen, hch, hl⟩ :=
        ih hwUpdFind hchainU hlastU hopsRest hrun w' hw'
      refine ⟨?_, hch, hl⟩
      rw [hlen]
      have hlenU : wUpd.transactions.length = w.transactions.length + 1 := by
        show (w.transactions ++ [tx2]).length = w.transactions.length + 1
        simp
      rw [hlenU, List.length_cons]
      omega

/-- Claim C5 — chained audit trail: starting from a wallet with an empty
transaction list, after `N` successful ledger operations on it the embedded
list has exactly `N` records and consecutive records satisfy
`balanceAfter i = balanceBefore (i+1)`. -/
theorem chainedAuditTrail (σ σ' : List Wallet) (ops : List LedgerOp)
    (i : Nat) (w w' : Wallet) (hw : findById σ i = some w)
    (hempty : w.transactions = [])
    (hops : ∀ op ∈ ops, op.walletId = i)
    (hrun : applyOpsOk σ ops = some σ')
    (hw' : findById σ' i = some w') :
    w'.transactions.length = ops.length ∧ chained w'.transactions = true := by
  obtain ⟨hlen, hch, _⟩ := applyOpsOk_chain hw
    (by rw [hempty]; rfl)
    (by rw [hempty]; intro t ht; cases ht)
    hops hrun w' hw'
  rw [hempty] at hlen
  exact ⟨by rw [hlen]; simp, hch⟩

/-- Witness for C5: the chained-audit theorem applied to a concrete
two-operation run. -/
theorem chainedAuditTrail_witness :
    findById [demoWallet 1 5] 1 = some (demoWallet 1 5) ∧
    (demoWallet 1 5).transactions = [] ∧
    applyOpsOk [demoWallet 1 5] [⟨1, 9, 100, TransactionType.deposit⟩,
      ⟨1, 9, 30, TransactionType.withdrawal⟩] = some c5FinalStore ∧
    findById c5FinalStore 1 = some c5FinalWallet ∧
    (c5FinalWallet.transactions.length = 2 ∧
      chained c5FinalWallet.transactions = true) :=
  ⟨by decide, by decide, by decide, by decide,
   chainedAuditTrail [demoWallet 1 5] c5FinalStore
     [⟨1, 9, 100, TransactionType.deposit⟩,
      ⟨1, 9, 30, TransactionType.withdrawal⟩] 1 (demoWallet 1 5)
     c5FinalWallet (by decide) (by decide) (by decide) (by decide)
     (by decide)⟩

/-- Witness for C3: the invariant applied to the concrete run `c3Ops`. -/
theorem noNegativeBalance_invariant_witness :
    findById c3Store 1 = some (demoWallet 1 5) ∧
    0 ≤ (demoWallet 1 5).balance ∧
    findById (applyOps c3Store c3Ops) 1 = some c3FinalWallet ∧
    0 ≤ c3FinalWallet.balance :=
  ⟨by decide, by decide, by decide,
   noNegativeBalance_invariant.1 c3Store c3Ops 1 (demoWallet 1 5)
     c3FinalWallet (by decide) (by decide) (by decide)⟩

/-- Claim C4 — every record appended by a successful `processTransaction` has
status `completed`, snapshots the stored balance around the adjustment
(`balanceAfter - balanceBefore` is `+amount` for deposits and `-amount`
otherwise), and the appended record is exactly the value returned. -/
theorem processTransaction_record_correct (σ σ' : List Wallet)
    (wid uid : Nat) (amount : Int) (t : TransactionType) (d : Option String)
    (m : List (String × String)) (env : Nat) (w : Wallet) (tx : Transaction)
    (hw : findById σ wid = some w)
    (h : processTransaction σ wid uid amount t d m env = .ok (σ', tx)) :
    tx.status = TransactionStatus.completed ∧
    tx.balanceBefore = w.balance ∧
    tx.balanceAfter = w.balance + txDelta t amount ∧
    tx.balanceAfter - tx.balanceBefore =
      (if t = TransactionType.deposit then amount else -amount) ∧
    findById σ' wid =
      some { w with balance := w.balance + txDelta t amount,
                    transactions := w.transactions ++ [tx] } := by
  obtain ⟨w0, hfind0, hpos, hfunds, _, _, _, hst, _, hbb, hba, hσ'⟩ :=
    processTransaction_ok_elim h
  rw [hw] at hfind0
  injection hfind0 with hw0
  subst hw0
  refine ⟨hst, hbb, hba, ?_, ?_⟩
  · rw [hba, hbb, txDelta]
    by_cases hdep : t = TransactionType.deposit
    · simp only [if_pos hdep]
      omega
    · simp only [if_neg hdep]
      omega
  · rw [hσ']
    exact findById_setById_self
      (by show w.id = wid; exact findById_some_id hw) hw

/-- Witness for C4: the record theorem applied to the concrete deposit. -/
theorem processTransaction_record_correct_witness :
    findById [demoWallet 1 0] 1 = some (demoWallet 1 0) ∧
    c4Run = .ok (c4Store, c4Tx) ∧
    (c4Tx.status = TransactionStatus.completed ∧
     c4Tx.balanceBefore = (demoWallet 1 0).balance ∧
     c4Tx.balanceAfter = (demoWallet 1 0).balance +
       txDelta TransactionType.deposit 100 ∧
     c4Tx.balanceAfter - c4Tx.balanceBefore =
       (if TransactionType.deposit = TransactionType.deposit then (100 : Int)
        else -100) ∧
     findById c4Store 1 = some c4NewWallet) :=
  ⟨by decide, by decide,
   processTransaction_record_correct [demoWallet 1 0] c4Store 1 9 100
     TransactionType.deposit none [] 0 (demoWallet 1 0) c4Tx (by decide)
     (by decide)⟩

/-- Claim C1 — evaluating `transferFunds` on two wallets holding 100 each:
the transfer of 10 completes, but BOTH balances drop to 90, because the
recipient leg is tagged `transfer` and `processTransaction` debits every
non-`deposit` type; the combined balance shrinks from 200 to 180 instead
of being conserved. -/
theorem transferFunds_debits_recipient :
    (transferFunds c1Store 1 2 10 9 none [] 0).map
      (fun r => ((findById r.1 1).map Wallet.balance,
                 (findById r.1 2).map Wallet.balance)) =
      .ok (some 90, some 90) := by decide

/-- Claim C2 — evaluating `processTransaction` on a wallet holding 15: a
withdrawal of 10 would leave the non-negative balance 5, yet the source's
check `wallet.balance < amount` against the post-adjustment balance
(5 < 10) rejects it with `Insufficient funds`, and the rollback leaves the
store unchanged. -/
theorem insufficientFunds_uses_postBalance :
    processTransaction [demoWallet 1 15] 1 9 10 TransactionType.withdrawal
      none [] 0 =
      .error (.badRequest "Insufficient funds for this transaction") ∧
    0 ≤ (demoWallet 1 15).balance - 10 ∧
    applyOp [demoWallet 1 15] ⟨1, 9, 10, TransactionType.withdrawal⟩ =
      [demoWallet 1 15] := by decide

/-- Claim C6 — `getOrCreateWallet` returns the wallet matching the composite
key when present, otherwise creates and returns one with zero balances and
an empty transaction list, and rejects unrecognized owner types or
incomplete asset descriptors with `InvalidInput`. -/
theorem getOrCreateWallet_correct (σ : List Wallet) (ot : String) (oid : Nat)
    (a : Asset) (wt : WalletType) (newId : Nat) :
    ((walletOwnerTypeValues.contains ot = false ∨ a.code = "" ∨ a.type = "") →
      ∃ msg, getOrCreateWallet σ ot oid a wt newId false =
        .error (.badRequest msg)) ∧
    (walletOwnerTypeValues.contains ot = true → a.code ≠ "" → a.type ≠ "" →
      (∀ w, findWalletByKey σ ot oid a = some w →
        getOrCreateWallet σ ot oid a wt newId false = .ok (σ, w)) ∧
      (findWalletByKey σ ot oid a = none →
        getOrCreateWallet σ ot oid a wt newId false =
          .ok (σ ++ [freshWallet ot oid a wt newId],
               freshWallet ot oid a wt newId) ∧
        (freshWallet ot oid a wt newId).balance = 0 ∧
        (freshWallet ot oid a wt newId).availableBalance = 0 ∧
        (freshWallet ot oid a wt newId).lockedBalance = 0 ∧
        (freshWallet ot oid a wt newId).transactions = [])) := by
  constructor
  · intro hbad
    unfold getOrCreateWallet
    by_cases hot : walletOwnerTypeValues.contains ot = true
    · have hak : a.code = "" ∨ a.type = "" := by
        rcases hbad with hbad | hbad | hbad
        · rw [hot] at hbad
          cases hbad
        · exact Or.inl hbad
        · exact Or.inr hbad
      refine ⟨"Invalid asset information", ?_⟩
      rw [if_neg (fun hC => hC hot), if_pos hak]
    · refine ⟨"Invalid owner type", ?_⟩
      rw [if_pos hot]
  · intro hot hc hk
    constructor
    · intro w hfw
      unfold getOrCreateWallet
      rw [if_neg (fun hC => hC hot),
        if_neg (fun hcc => hcc.elim hc hk), hfw]
    · intro hfw
      refine ⟨?_, rfl, rfl, rfl, rfl⟩
      unfold getOrCreateWallet
      rw [if_neg (fun hC => hC hot),
        if_neg (fun hcc => hcc.elim hc hk), hfw]
      rfl

/-- Witness for C6: creation on an empty collection. -/
theorem getOrCreateWallet_correct_witness :
    walletOwnerTypeValues.contains "user" = true ∧
    c6Asset.code ≠ "" ∧ c6Asset.type ≠ "" ∧
    findWalletByKey [] "user" 3 c6Asset = none ∧
    (getOrCreateWallet [] "user" 3 c6Asset WalletType.fiat 7 false =
       .ok ([] ++ [freshWallet "user" 3 c6Asset WalletType.fiat 7],
            freshWallet "user" 3 c6Asset WalletType.fiat 7) ∧
     (freshWallet "user" 3 c6Asset WalletType.fiat 7).balance = 0 ∧
     (freshWallet "user" 3 c6Asset WalletType.fiat 7).availableBalance = 0 ∧
     (freshWallet "user" 3 c6Asset WalletType.fiat 7).lockedBalance = 0 ∧
     (freshWallet "user" 3 c6Asset WalletType.fiat 7).transactions = []) :=
  ⟨by decide, by decide, by decide, by decide,
   ((getOrCreateWallet_correct [] "user" 3 c6Asset WalletType.fiat 7).2
     (by decide) (by decide) (by decide)).2 (by decide)⟩

/-- Claim C7 — when the insert inside `getOrCreateWallet` hits the
duplicate-key error (a concurrent call created the same composite key
between `findOne` and `create`), the catch block aborts the session and
rethrows: the duplicate-key error propagates to the caller and no re-read
of the existing wallet happens. -/
theorem getOrCreateWallet_dupKey_propagates :
    getOrCreateWallet [] "user" 3 c6Asset WalletType.fiat 7 true =
      .error .duplicateKey := by decide

/-- Claim C10 — the existence lookup of `getOrCreateWallet` matches only on
`(ownerType, ownerId, asset.code, asset.type)`: an existing wallet is
returned unchanged for every requested `walletType` (and every insert-race
outcome), whatever its stored `type` or `isActive` flag; the requested
`walletType` only becomes the `type` of a newly created wallet. -/
theorem getOrCreateWallet_lookup_ignores_walletType (σ : List Wallet)
    (ot : String) (oid : Nat) (a : Asset) (newId : Nat) (w : Wallet)
    (hot : walletOwnerTypeValues.contains ot = true)
    (hc : a.code ≠ "") (hk : a.type ≠ "")
    (hf : findWalletByKey σ ot oid a = some w) :
    (∀ (wt : WalletType) (dup : Bool),
        getOrCreateWallet σ ot oid a wt newId dup = .ok (σ, w)) ∧
    (∀ wt : WalletType, (freshWallet ot oid a wt newId).type = wt) := by
  constructor
  · intro wt dup
    unfold getOrCreateWallet
    rw [if_neg (fun hC => hC hot),
      if_neg (fun hcc => hcc.elim hc hk), hf]
  · intro wt
    rfl

/-- Witness for C10: a request for a `crypto` wallet returns the existing
inactive `fiat` wallet unchanged. -/
theorem getOrCreateWallet_lookup_ignores_walletType_witness :
    walletOwnerTypeValues.contains "user" = true ∧
    c6Asset.code ≠ "" ∧ c6Asset.type ≠ "" ∧
    findWalletByKey [c10Wallet] "user" 7 c6Asset = some c10Wallet ∧
    c10Wallet.isActive = false ∧ c10Wallet.type = WalletType.fiat ∧
    getOrCreateWallet [c10Wallet] "user" 7 c6Asset WalletType.crypto 9
      false = .ok ([c10Wallet], c10Wallet) ∧
    (freshWallet "user" 7 c6Asset WalletType.crypto 9).type =
      WalletType.crypto :=
  ⟨by decide, by decide, by decide, by decide, by decide, by decide,
   (getOrCreateWallet_lookup_ignores_walletType [c10Wallet] "user" 7
     c6Asset 9 c10Wallet (by decide) (by decide) (by decide) (by decide)).1
     WalletType.crypto false,
   (getOrCreateWallet_lookup_ignores_walletType [c10Wallet] "user" 7
     c6Asset 9 c10Wallet (by decide) (by decide) (by decide) (by decide)).2
     WalletType.crypto⟩

/-- Claim C8 — evaluating `getWalletWithTransactions`: the missing-wallet
path does fail with `NotFound`, but for an existing wallet the call throws
`TypeError` — `this.constructor` is the service class, which has no static
`aggregate`, so the page described by the claim is never produced. -/
theorem getWalletWithTransactions_typeError :
    getWalletWithTransactions [c8Wallet] 1 {} =
      .error (.typeError "this.constructor.aggregate is not a function") ∧
    getWalletWithTransactions [c8Wallet] 2 {} =
      .error (.notFound "Wallet not found") := by decide

/-- Claim C9 counterexample — `NaN` and `+Infinity` are not finite numbers
strictly greater than 0, yet the source's validation `amount <= 0` does
not reject either of them (every JS comparison against `NaN` is false, and
`Infinity <= 0` is false). -/
theorem amountValidation_passes_nan_and_posInf :
    isFinitePositive JSNum.nan = false ∧
    amountValidationFails JSNum.nan = false ∧
    isFinitePositive JSNum.posInf = false ∧
    amountValidationFails JSNum.posInf = false := by decide

/-- Claim C9 amended — the validation rejects exactly the number arguments
that compare `<= 0` in JS: `-Infinity` and finite values `≤ 0`; `NaN` and
`+Infinity` pass it. -/
theorem amountValidationFails_iff (a : JSNum) :
    amountValidationFails a = true ↔
      (a = JSNum.negInf ∨ ∃ q, a = JSNum.finite q ∧ q ≤ 0) := by
  cases a with
  | nan => simp [amountValidationFails, jsLe]
  | posInf => simp [amountValidationFails, jsLe]
  | negInf => simp [amountValidationFails, jsLe]
  | finite q => simp [amountValidationFails, jsLe]
